import Mathlib

/-!
Verification of the portfolio repository's core logic against its
specification: the project filter (ProjectFilter.tsx), the certificate
carousel (CertificatesSlider.tsx) and the OG-image build pipeline
(scripts/generate-og.mjs), shallowly embedded in Lean.

Strings are modelled as `List Char`; JavaScript `%` on numbers is the
truncated remainder, modelled by `Int.tmod`.
-/

/-- Strings of the embedded program: lists of characters. -/
abbrev Str := List Char

/-- Embeds JavaScript `String.prototype.toLowerCase` (per-character lowering). -/
def lowerStr (s : Str) : Str := s.map Char.toLower

/-- Embeds JavaScript `hay.includes(needle)`: `needle` occurs in `hay` as a
contiguous substring (the empty needle always matches). -/
def containsSub (hay needle : Str) : Bool :=
  needle.isPrefixOf hay ||
    match hay with
    | [] => false
    | _ :: t => containsSub t needle

/-- Project front-matter data as consumed by `ProjectFilter` (part_000/part_001). -/
structure ProjectData where
  title : Str
  description : Str
  tags : List Str
  date : Int
  heroImage : Option Str
deriving DecidableEq

/-- A project record: `{ slug, data }`. -/
structure Project where
  slug : Str
  data : ProjectData
deriving DecidableEq

/-- Embeds the search condition of `filteredProjects`:
`project.data.title.toLowerCase().includes(search.toLowerCase()) ||
 project.data.description.toLowerCase().includes(search.toLowerCase())`. -/
def matchesSearch (search : Str) (p : Project) : Bool :=
  containsSub (lowerStr p.data.title) (lowerStr search) ||
    containsSub (lowerStr p.data.description) (lowerStr search)

/-- Embeds the tag condition of `filteredProjects`:
`selectedTag ? project.data.tags.includes(selectedTag) : true`.
JavaScript truthiness makes the guard take the `true` branch both when
`selectedTag` is `null` and when it is the empty string. -/
def matchesTag (selectedTag : Option Str) (p : Project) : Bool :=
  match selectedTag with
  | none => true
  | some t => if t.isEmpty then true else p.data.tags.contains t

/-- Embeds the `filteredProjects` memo of `ProjectFilter`:
`projects.filter(p => matchesSearch && matchesTag)`. -/
def filteredProjects (projects : List Project) (search : Str)
    (selectedTag : Option Str) : List Project :=
  projects.filter (fun p => matchesSearch search p && matchesTag selectedTag p)

/-- The specification's per-project predicate, written from the spec's words:
title or description contains the search text case-insensitively, AND the
tag set contains the selected tag whenever one is set. -/
def specMatches (search : Str) (selectedTag : Option Str) (p : Project) : Bool :=
  (containsSub (lowerStr p.data.title) (lowerStr search) ||
      containsSub (lowerStr p.data.description) (lowerStr search)) &&
    (match selectedTag with
     | none => true
     | some t => p.data.tags.contains t)

/-- A project with an empty tag list, used to exercise the empty-string tag. -/
def cexProject : Project :=
  { slug := [], data := { title := [], description := [], tags := [], date := 0, heroImage := none } }

/-- The tag of the sample project from the spec scenario. -/
def goTag : Str := "go".toList

/-- The spec scenario's first project: title Foo, tags [go]. -/
def fooProject : Project :=
  { slug := "foo".toList
    data := { title := "Foo".toList, description := [], tags := [goTag], date := 0, heroImage := none } }

/-- The spec scenario's second project: title Bar, tags [rust]. -/
def barProject : Project :=
  { slug := "bar".toList
    data := { title := "Bar".toList, description := [], tags := ["rust".toList], date := 0, heroImage := none } }

/-- The empty needle occurs in every string. -/
theorem containsSub_nil (hay : Str) : containsSub hay [] = true := by
  cases hay <;> simp [containsSub, List.isPrefixOf]

/-- C1 fails as stated: with the selected tag set to the empty string, the
code's truthiness guard ignores the tag condition, so a project whose tag set
does not contain the empty string is still returned. -/
theorem filteredProjects_emptyTag_cex :
    filteredProjects [cexProject] [] (some []) ≠
      List.filter (specMatches [] (some [])) [cexProject] := by
  decide

/-- C1 (amended): whenever the selected tag is absent or a non-empty string,
`filteredProjects` returns exactly the ordered sub-sequence of the input
satisfying the spec's predicate; moreover with empty search text and no tag
it returns the whole input list. -/
theorem filteredProjects_spec (P : List Project) (q : Str) (t : Option Str)
    (ht : t = none ∨ ∃ s, t = some s ∧ s ≠ []) :
    filteredProjects P q t = P.filter (specMatches q t) ∧
    filteredProjects P [] none = P := by
  constructor
  · apply List.filter_congr
    intro p _
    rcases ht with h | ⟨s, hs, hne⟩
    · subst h
      simp [matchesSearch, matchesTag, specMatches]
    · subst hs
      cases s with
      | nil => exact absurd rfl hne
      | cons a l =>
        simp [matchesSearch, matchesTag, specMatches, List.isEmpty]
  · unfold filteredProjects
    rw [List.filter_eq_self]
    intro p _
    simp [matchesSearch, matchesTag, lowerStr, containsSub_nil]

/-- C1 witness: the spec scenario (projects Foo and Bar, empty search text,
selected tag go) instantiates the amended theorem. -/
theorem filteredProjects_spec_witness :
    filteredProjects [fooProject, barProject] [] (some goTag) =
      List.filter (specMatches [] (some goTag)) [fooProject, barProject] ∧
    filteredProjects [fooProject, barProject] [] none = [fooProject, barProject] :=
  filteredProjects_spec [fooProject, barProject] [] (some goTag)
    (Or.inr ⟨goTag, rfl, by decide⟩)

/-- A certificate record as consumed by `CertificatesSlider` (part_001). -/
structure Certificate where
  id : Int
  title : Str
  issuer : Str
  description : Str
  date : Str
  image : Option Str
  link : Option Str
deriving DecidableEq

/-- Embeds `nextSlide`: `setActiveIndex(prev => (prev + 1) % certificates.length)`.
JavaScript `%` is the truncated remainder, `Int.tmod`. -/
def nextSlide (certs : List Certificate) (i : Int) : Int :=
  (i + 1).tmod (certs.length : Int)

/-- Embeds `prevSlide`:
`setActiveIndex(prev => (prev - 1 + certificates.length) % certificates.length)`. -/
def prevSlide (certs : List Certificate) (i : Int) : Int :=
  (i - 1 + (certs.length : Int)).tmod (certs.length : Int)

/-- A concrete five-element certificate list for the spec's wrap-around scenario. -/
def mkCert (n : Int) : Certificate :=
  { id := n, title := [], issuer := [], description := [], date := [], image := none, link := none }

/-- Five demo certificates (N = 5). -/
def demoCerts : List Certificate :=
  [mkCert 0, mkCert 1, mkCert 2, mkCert 3, mkCert 4]

/-- C2: for a list of N >= 1 certificates and 0 <= i < N, `nextSlide` computes
(i + 1) mod N and `prevSlide` computes (i - 1 + N) mod N, with mod the
mathematical (euclidean) remainder. -/
theorem nextPrev_mod_spec (certs : List Certificate) (i : Int)
    (hn : 1 ≤ certs.length) (h0 : 0 ≤ i) (h1 : i < (certs.length : Int)) :
    nextSlide certs i = (i + 1) % (certs.length : Int) ∧
    prevSlide certs i = (i - 1 + (certs.length : Int)) % (certs.length : Int) := by
  constructor
  · exact Int.tmod_eq_emod (by omega) (by omega)
  · exact Int.tmod_eq_emod (by omega) (by omega)

/-- C2 witness: with the five demo certificates and activeIndex 4 (the last),
both equations hold and `nextSlide` wraps around to 0. -/
theorem nextPrev_mod_spec_witness :
    (nextSlide demoCerts 4 = ((4 : Int) + 1) % (demoCerts.length : Int) ∧
      prevSlide demoCerts 4 = ((4 : Int) - 1 + (demoCerts.length : Int)) % (demoCerts.length : Int)) ∧
    nextSlide demoCerts 4 = 0 :=
  ⟨nextPrev_mod_spec demoCerts 4 (by decide) (by decide) (by decide), by decide⟩

/-- Shifting the dividend of a euclidean remainder by its own remainder:
(x % N - 1 + N) % N = (x - 1 + N) % N. -/
theorem emod_sub_one_add (x N : Int) : (x % N - 1 + N) % N = (x - 1 + N) % N := by
  conv_lhs => rw [Int.emod_def x N]
  rw [show x - N * (x / N) - 1 + N = x - 1 + N + N * (-(x / N)) from by ring,
    Int.add_mul_emod_self_left]

/-- Shifting the dividend of a euclidean remainder by its own remainder:
(x % N + 1) % N = (x + 1) % N. -/
theorem emod_add_one (x N : Int) : (x % N + 1) % N = (x + 1) % N := by
  conv_lhs => rw [Int.emod_def x N]
  rw [show x - N * (x / N) + 1 = x + 1 + N * (-(x / N)) from by ring,
    Int.add_mul_emod_self_left]

/-- Adding the modulus to a reduced value is invisible to the remainder. -/
theorem emod_add_self_eq (i N : Int) (h0 : 0 ≤ i) (h1 : i < N) : (i + N) % N = i := by
  rw [show i + N = i + N * 1 from by ring, Int.add_mul_emod_self_left,
    Int.emod_eq_of_lt h0 h1]

/-- C4: for N >= 1 and 0 <= i < N, `prevSlide` undoes `nextSlide` and
`nextSlide` undoes `prevSlide` (round-trip identity on activeIndex). -/
theorem next_prev_roundtrip (certs : List Certificate) (i : Int)
    (hn : 1 ≤ certs.length) (h0 : 0 ≤ i) (h1 : i < (certs.length : Int)) :
    prevSlide certs (nextSlide certs i) = i ∧
    nextSlide certs (prevSlide certs i) = i := by
  have hNz : (certs.length : Int) ≠ 0 := by omega
  have hnext : nextSlide certs i = (i + 1) % (certs.length : Int) :=
    Int.tmod_eq_emod (by omega) (by omega)
  have hprev : prevSlide certs i = (i - 1 + (certs.length : Int)) % (certs.length : Int) :=
    Int.tmod_eq_emod (by omega) (by omega)
  constructor
  · rw [hnext]
    have hge : 0 ≤ (i + 1) % (certs.length : Int) := Int.emod_nonneg _ hNz
    unfold prevSlide
    rw [Int.tmod_eq_emod (by omega) (by omega), emod_sub_one_add,
      show i + 1 - 1 + (certs.length : Int) = i + (certs.length : Int) from by ring,
      emod_add_self_eq i _ h0 h1]
  · rw [hprev]
    have hge : 0 ≤ (i - 1 + (certs.length : Int)) % (certs.length : Int) :=
      Int.emod_nonneg _ hNz
    unfold nextSlide
    rw [Int.tmod_eq_emod (by omega) (by omega), emod_add_one,
      show i - 1 + (certs.length : Int) + 1 = i + (certs.length : Int) from by ring,
      emod_add_self_eq i _ h0 h1]

/-- C4 witness: round-trip at the wrap-around point of the five demo
certificates (i = 4). -/
theorem next_prev_roundtrip_witness :
    prevSlide demoCerts (nextSlide demoCerts 4) = 4 ∧
    nextSlide demoCerts (prevSlide demoCerts 4) = 4 :=
  next_prev_roundtrip demoCerts 4 (by decide) (by decide) (by decide)

/-- Carousel operations reachable from the rendered controls: the next/prev
buttons and a click on a rendered card (`setActiveIndex(index)`). -/
inductive CarouselOp where
  | next : CarouselOp
  | prev : CarouselOp
  | jump : Nat → CarouselOp
deriving DecidableEq

/-- Applies one carousel operation to the current activeIndex. -/
def applyOp (certs : List Certificate) (st : Int) : CarouselOp → Int
  | CarouselOp.next => nextSlide certs st
  | CarouselOp.prev => prevSlide certs st
  | CarouselOp.jump i => (i : Int)

/-- Runs a sequence of carousel operations from the initial state
`useState(0)`. -/
def runOps (certs : List Certificate) (ops : List CarouselOp) : Int :=
  ops.foldl (applyOp certs) 0

/-- A jump operation is in range when its target index is a rendered card. -/
def opInRange (certs : List Certificate) : CarouselOp → Bool
  | CarouselOp.jump i => decide (i < certs.length)
  | _ => true

/-- One operation preserves the activeIndex range invariant. -/
theorem applyOp_bounds (certs : List Certificate) (st : Int) (op : CarouselOp)
    (hn : 1 ≤ certs.length) (h0 : 0 ≤ st) (h1 : st < (certs.length : Int))
    (hop : opInRange certs op = true) :
    0 ≤ applyOp certs st op ∧ applyOp certs st op < (certs.length : Int) := by
  have hNz : (certs.length : Int) ≠ 0 := by omega
  cases op with
  | next =>
    unfold applyOp nextSlide
    rw [Int.tmod_eq_emod (by omega) (by omega)]
    exact ⟨Int.emod_nonneg _ hNz, Int.emod_lt_of_pos _ (by omega)⟩
  | prev =>
    unfold applyOp prevSlide
    rw [Int.tmod_eq_emod (by omega) (by omega)]
    exact ⟨Int.emod_nonneg _ hNz, Int.emod_lt_of_pos _ (by omega)⟩
  | jump i =>
    simp only [applyOp]
    simp [opInRange] at hop
    omega

/-- The fold over any in-range operation list preserves the range invariant. -/
theorem foldl_applyOp_bounds (certs : List Certificate) (ops : List CarouselOp)
    (hn : 1 ≤ certs.length) :
    ∀ st : Int, 0 ≤ st → st < (certs.length : Int) →
      (∀ op ∈ ops, opInRange certs op = true) →
      0 ≤ ops.foldl (applyOp certs) st ∧
        ops.foldl (applyOp certs) st < (certs.length : Int) := by
  induction ops with
  | nil => intro st h0 h1 _; exact ⟨h0, h1⟩
  | cons op rest ih =>
    intro st h0 h1 hops
    have hop : opInRange certs op = true := hops op (List.mem_cons_self op rest)
    have hb := applyOp_bounds certs st op hn h0 h1 hop
    exact ih (applyOp certs st op) hb.1 hb.2
      (fun o ho => hops o (List.mem_cons_of_mem op ho))

/-- C3: from the initial state activeIndex = 0, every sequence of next, prev
and in-range jump operations keeps activeIndex a valid index into a non-empty
certificate list. -/
theorem activeIndex_invariant (certs : List Certificate) (ops : List CarouselOp)
    (hn : 1 ≤ certs.length)
    (hops : ops.all (fun op => opInRange certs op) = true) :
    0 ≤ runOps certs ops ∧ runOps certs ops < (certs.length : Int) := by
  unfold runOps
  exact foldl_applyOp_bounds certs ops hn 0 le_rfl (by omega)
    (fun op ho => by
      have := List.all_eq_true.mp hops op ho
      simpa using this)

/-- C3 witness: a mixed operation sequence on the five demo certificates. -/
theorem activeIndex_invariant_witness :
    0 ≤ runOps demoCerts
        [CarouselOp.next, CarouselOp.jump 3, CarouselOp.prev, CarouselOp.prev,
          CarouselOp.next] ∧
    runOps demoCerts
        [CarouselOp.next, CarouselOp.jump 3, CarouselOp.prev, CarouselOp.prev,
          CarouselOp.next] < (demoCerts.length : Int) :=
  activeIndex_invariant demoCerts
    [CarouselOp.next, CarouselOp.jump 3, CarouselOp.prev, CarouselOp.prev,
      CarouselOp.next] (by decide) (by decide)

/-- First normalization step of `getCardStyle`: `if (diff > total / 2) diff -= total`.
JavaScript divides by 2 exactly, so the comparison is embedded as the
equivalent `total < 2 * diff` (likewise `2 * diff < -total` below). -/
def wrapHigh (total d : Int) : Int := if total < 2 * d then d - total else d

/-- Second normalization step of `getCardStyle`: `if (diff < -total / 2) diff += total`. -/
def wrapLow (total d : Int) : Int := if 2 * d < -total then d + total else d

/-- The normalized diff of `getCardStyle`: `diff = index - activeIndex` followed
by the two sequential wrap adjustments. -/
def getCardDiff (certs : List Certificate) (index activeIndex : Int) : Int :=
  wrapLow (certs.length : Int) (wrapHigh (certs.length : Int) (index - activeIndex))

/-- C5: for N >= 1 and rendered indices in [0, N), the normalized circular
distance is 0 for the active card and bounded by floor(N / 2) in absolute
value for every card. -/
theorem cardDiff_bounds (certs : List Certificate) (a i : Int)
    (hn : 1 ≤ certs.length) (ha0 : 0 ≤ a) (ha1 : a < (certs.length : Int))
    (hi0 : 0 ≤ i) (hi1 : i < (certs.length : Int)) :
    getCardDiff certs a a = 0 ∧
    (getCardDiff certs i a).natAbs ≤ certs.length / 2 := by
  constructor
  · unfold getCardDiff wrapLow wrapHigh
    split_ifs <;> omega
  · unfold getCardDiff wrapLow wrapHigh
    split_ifs <;> omega

/-- C5 witness: the five demo certificates with activeIndex 4 and card index 0
(the wrap-around pair). -/
theorem cardDiff_bounds_witness :
    getCardDiff demoCerts 4 4 = 0 ∧
    (getCardDiff demoCerts 0 4).natAbs ≤ demoCerts.length / 2 :=
  cardDiff_bounds demoCerts 4 0 (by decide) (by decide) (by decide) (by decide)
    (by decide)

/-- Component state of `CertificatesSlider`: the five `useState` hooks. -/
structure SliderState where
  activeIndex : Int
  touchStart : Option Int
  touchEnd : Option Int
  isDragging : Bool
  dragStartX : Option Int
deriving DecidableEq

/-- Initial slider state: `useState(0)`, `useState(null)`, `useState(null)`,
`useState(false)`, `useState(null)`. -/
def initSlider : SliderState :=
  { activeIndex := 0, touchStart := none, touchEnd := none,
    isDragging := false, dragStartX := none }

/-- The browser events the slider handles; the payload is the horizontal
client coordinate, or the rendered index of the clicked card. -/
inductive SliderEvent where
  | touchStartEv : Int → SliderEvent
  | touchMoveEv : Int → SliderEvent
  | touchEndEv : SliderEvent
  | mouseDownEv : Int → SliderEvent
  | mouseMoveEv : Int → SliderEvent
  | mouseUpEv : Int → SliderEvent
  | mouseLeaveEv : SliderEvent
  | clickEv : Nat → SliderEvent
deriving DecidableEq

/-- `const minSwipeDistance = 50`. -/
def minSwipeDistance : Int := 50

/-- Embeds the slider's event handlers, one step per browser event. The
`onTouchEnd` guard `if (!touchStart || !touchEnd) return` is truthiness on
numbers, so a recorded coordinate equal to 0 also takes the early return. -/
def stepEvent (certs : List Certificate) (st : SliderState) : SliderEvent → SliderState
  | SliderEvent.touchStartEv x => { st with touchEnd := none, touchStart := some x }
  | SliderEvent.touchMoveEv x => { st with touchEnd := some x }
  | SliderEvent.touchEndEv =>
    match st.touchStart, st.touchEnd with
    | some s, some e =>
      if s = 0 ∨ e = 0 then st
      else if minSwipeDistance < s - e then
        { st with activeIndex := nextSlide certs st.activeIndex }
      else if s - e < -minSwipeDistance then
        { st with activeIndex := prevSlide certs st.activeIndex }
      else st
    | _, _ => st
  | SliderEvent.mouseDownEv x => { st with isDragging := true, dragStartX := some x }
  | SliderEvent.mouseMoveEv _ => st
  | SliderEvent.mouseUpEv x =>
    match st.isDragging, st.dragStartX with
    | true, some s =>
      let st1 :=
        if minSwipeDistance < s - x then
          { st with activeIndex := nextSlide certs st.activeIndex }
        else if s - x < -minSwipeDistance then
          { st with activeIndex := prevSlide certs st.activeIndex }
        else st
      { st1 with isDragging := false, dragStartX := none }
    | _, _ => st
  | SliderEvent.mouseLeaveEv => { st with isDragging := false, dragStartX := none }
  | SliderEvent.clickEv i =>
    if st.isDragging then st else { st with activeIndex := (i : Int) }

/-- Runs a browser event sequence from the initial slider state. -/
def runEvents (certs : List Certificate) (evs : List SliderEvent) : SliderState :=
  evs.foldl (stepEvent certs) initSlider

/-- An idle slider state at a given activeIndex: no gesture in progress. -/
def idleAt (a : Int) : SliderState :=
  { activeIndex := a, touchStart := none, touchEnd := none,
    isDragging := false, dragStartX := none }

/-- C6 fails on the code: a 70 px mouse drag on the five demo certificates
advances activeIndex from 0 to 1, but `onMouseUp` resets `isDragging` before
the browser dispatches the click on the released card, so the click's
`if (!isDragging)` guard passes and the click overwrites activeIndex with the
clicked card's index (2) instead of leaving the drag result (1). -/
theorem dragRelease_click_changes_index :
    (runEvents demoCerts
        [SliderEvent.mouseDownEv 100, SliderEvent.mouseUpEv 30]).activeIndex = 1 ∧
    (runEvents demoCerts
        [SliderEvent.mouseDownEv 100, SliderEvent.mouseUpEv 30,
          SliderEvent.clickEv 2]).activeIndex = 2 := by
  decide

/-- C7 fails as stated: a touch swipe from x = 60 to x = 0 moves 60 px (beyond
the 50 px threshold), yet the release does not trigger `nextSlide`, because the
handler's truthiness guard treats the recorded coordinate 0 as absent. -/
theorem touchZero_cex :
    ¬ (runEvents demoCerts
        [SliderEvent.touchStartEv 60, SliderEvent.touchMoveEv 0,
          SliderEvent.touchEndEv]).activeIndex
        = nextSlide demoCerts 0 := by
  decide

/-- C7 (amended): from an idle state at any activeIndex, a touch swipe whose
recorded start and end coordinates are both non-zero, and any mouse drag,
trigger `nextSlide` when the displacement exceeds 50 px leftward, `prevSlide`
when it exceeds 50 px rightward, and leave activeIndex unchanged at or below
the threshold. -/
theorem swipe_threshold_spec (certs : List Certificate) (a s e sm em : Int)
    (hs : s ≠ 0) (he : e ≠ 0) :
    (List.foldl (stepEvent certs) (idleAt a)
        [SliderEvent.touchStartEv s, SliderEvent.touchMoveEv e,
          SliderEvent.touchEndEv]).activeIndex
      = (if 50 < s - e then nextSlide certs a
         else if s - e < -50 then prevSlide certs a else a) ∧
    (List.foldl (stepEvent certs) (idleAt a)
        [SliderEvent.mouseDownEv sm, SliderEvent.mouseUpEv em]).activeIndex
      = (if 50 < sm - em then nextSlide certs a
         else if sm - em < -50 then prevSlide certs a else a) := by
  constructor
  · simp only [List.foldl, stepEvent, idleAt, minSwipeDistance]
    split_ifs with h1 h2 h3 <;> simp_all
  · simp only [List.foldl, stepEvent, idleAt, minSwipeDistance]
    split_ifs with h1 h2 <;> simp_all

/-- C7 witness: a 59 px leftward touch swipe, and a 60 px mouse drag released
at coordinate 0 (a coordinate the touch path would drop but the mouse path
handles), on the five demo certificates. -/
theorem swipe_threshold_spec_witness :
    (List.foldl (stepEvent demoCerts) (idleAt 0)
        [SliderEvent.touchStartEv 60, SliderEvent.touchMoveEv 1,
          SliderEvent.touchEndEv]).activeIndex
      = (if 50 < (60 : Int) - 1 then nextSlide demoCerts 0
         else if (60 : Int) - 1 < -50 then prevSlide demoCerts 0 else 0) ∧
    (List.foldl (stepEvent demoCerts) (idleAt 0)
        [SliderEvent.mouseDownEv 60, SliderEvent.mouseUpEv 0]).activeIndex
      = (if 50 < (60 : Int) - 0 then nextSlide demoCerts 0
         else if (60 : Int) - 0 < -50 then prevSlide demoCerts 0 else 0) :=
  swipe_threshold_spec demoCerts 0 60 1 60 0 (by decide) (by decide)

/-- A directory entry as returned by `fs.readdir(dir, { withFileTypes: true })`,
together with the outcome of the external sharp encode/write for that file
(an environment parameter of the run). -/
structure Entry where
  name : Str
  isFile : Bool
  encodeOk : Bool
deriving DecidableEq

/-- `const WIDTH = 1200`. -/
def WIDTH : Nat := 1200

/-- `const HEIGHT = 630`. -/
def HEIGHT : Nat := 630

/-- An output file written by the pipeline, recording the name and the resize
and encode parameters passed to sharp. -/
structure OutputFile where
  name : Str
  width : Nat
  height : Nat
  fit : Str
  position : Str
  quality : Nat
deriving DecidableEq

/-- The `fit: "cover"` resize option. -/
def fitCover : Str := "cover".toList

/-- The `position: "centre"` resize option. -/
def posCentre : Str := "centre".toList

/-- The fixed `.webp` target extension. -/
def webpExt : Str := ".webp".toList

/-- `OG_SOURCE_DIR`, relative to the repository root. -/
def ogSourceDir : Str := "src/og".toList

/-- `OG_OUTPUT_DIR`, relative to the repository root. -/
def ogOutputDir : Str := "public/images/og".toList

/-- Embeds `outNameFromInput`: `path.parse(inputFile).name + ".webp"`. Node's
`path.parse` takes the extension from the last dot of the base name, except
when that dot is its first character. -/
def outNameFromInput (s : Str) : Str :=
  let pre := s.reverse.dropWhile (fun c => c ≠ '.')
  (if pre.length ≤ 1 then s else (pre.drop 1).reverse) ++ webpExt

/-- Embeds `buildOne`: resize to WIDTH x HEIGHT with `fit: "cover"`,
`position: "centre"`, encode as webp at `quality: 82`, write to the output
name; `none` when the sharp chain throws for this file. -/
def buildOne (e : Entry) : Option OutputFile :=
  if e.encodeOk then
    some { name := outNameFromInput e.name, width := WIDTH, height := HEIGHT,
           fit := fitCover, position := posCentre, quality := 82 }
  else none

/-- Embeds the `for (const input of inputs)` loop of `main`: files are
processed strictly in order, and the first failure aborts the loop, keeping
the outputs already written and processing no later file. -/
def processAll : List Entry → Bool × List OutputFile
  | [] => (true, [])
  | e :: rest =>
    match buildOne e with
    | some o =>
      let r := processAll rest
      (r.1, o :: r.2)
    | none => (false, [])

/-- Filesystem effects the pipeline performs, in order. -/
inductive FsEffect where
  | mkdirRec : Str → FsEffect
  | access : Str → FsEffect
  | readdir : Str → FsEffect
  | writeOut : OutputFile → FsEffect
deriving DecidableEq

/-- Result of one pipeline run: the process exit code and the ordered
filesystem effect trace. -/
structure RunResult where
  exitCode : Nat
  effects : List FsEffect
deriving DecidableEq

/-- Embeds `main().catch(...)`: `ensureDir(OG_OUTPUT_DIR)` first, then the
`fs.access` probe of the source directory (missing directory is a logged
no-op), then `listFiles` keeping only file entries (empty list is a logged
no-op), then the sequential build loop; a throw reaches the `catch` and exits
with status 1, otherwise the process exits 0. -/
def runMain (srcDirExists : Bool) (entries : List Entry) : RunResult :=
  let pre := [FsEffect.mkdirRec ogOutputDir, FsEffect.access ogSourceDir]
  if srcDirExists = false then { exitCode := 0, effects := pre }
  else
    let inputs := entries.filter (fun e => e.isFile)
    let pre2 := pre ++ [FsEffect.readdir ogSourceDir]
    if inputs.length = 0 then { exitCode := 0, effects := pre2 }
    else
      let r := processAll inputs
      { exitCode := if r.1 then 0 else 1,
        effects := pre2 ++ r.2.map FsEffect.writeOut }

/-- The output files a run has written, read off its effect trace. -/
def writtenOutputs (r : RunResult) : List OutputFile :=
  r.effects.filterMap (fun eff =>
    match eff with
    | FsEffect.writeOut f => some f
    | _ => none)

/-- The output the spec's contract promises for one source file: the base
name with extension replaced by .webp, at 1200 x 630, cover fit anchored at
the centre, quality 82. -/
def expectedOutput (e : Entry) : OutputFile :=
  { name := outNameFromInput e.name, width := 1200, height := 630,
    fit := fitCover, position := posCentre, quality := 82 }

/-- When every file encodes, the loop succeeds and writes one output per file,
in order. -/
theorem processAll_all_ok (l : List Entry)
    (h : l.all (fun e => e.encodeOk) = true) :
    processAll l = (true, l.map expectedOutput) := by
  induction l with
  | nil => rfl
  | cons e rest ih =>
    simp only [List.all_cons, Bool.and_eq_true] at h
    simp only [processAll, buildOne, h.1, if_true, ih h.2, List.map_cons]
    rfl

/-- When the files split as good ++ bad :: rest with every good file encoding
and bad failing, the loop fails having written exactly the good outputs. -/
theorem processAll_first_fail (good rest : List Entry) (bad : Entry)
    (hgood : good.all (fun e => e.encodeOk) = true)
    (hbad : bad.encodeOk = false) :
    processAll (good ++ bad :: rest) = (false, good.map expectedOutput) := by
  induction good with
  | nil =>
    have hb : buildOne bad = none := by simp [buildOne, hbad]
    rw [List.nil_append, processAll, hb]
    rfl
  | cons e tl ih =>
    simp only [List.all_cons, Bool.and_eq_true] at hgood
    have hb : buildOne e = some (expectedOutput e) := by
      simp [buildOne, expectedOutput, WIDTH, HEIGHT, hgood.1]
    rw [List.cons_append, processAll, hb]
    simp only [ih hgood.2, List.map_cons]

/-- Extracting the written outputs of a run assembled from a write-free
preamble followed by the write trace of an output list. -/
theorem writtenOutputs_calc (c : Nat) (pre : List FsEffect) (outs : List OutputFile)
    (hpre : ∀ eff ∈ pre, ∀ f, eff ≠ FsEffect.writeOut f) :
    writtenOutputs { exitCode := c, effects := pre ++ outs.map FsEffect.writeOut }
      = outs := by
  unfold writtenOutputs
  simp only [List.filterMap_append, List.filterMap_map]
  have h1 : pre.filterMap (fun eff =>
      match eff with
      | FsEffect.writeOut f => some f
      | _ => none) = [] := by
    rw [List.filterMap_eq_nil]
    intro eff heff
    cases eff with
    | writeOut f => exact absurd rfl (hpre _ heff f)
    | mkdirRec d => rfl
    | access d => rfl
    | readdir d => rfl
  rw [h1, List.nil_append]
  have h2 : ((fun eff =>
      match eff with
      | FsEffect.writeOut f => some f
      | _ => none) ∘ FsEffect.writeOut) = some := funext fun _ => rfl
  rw [h2]
  exact List.filterMap_some outs

/-- The run over an existing source directory, with its branch on whether any
file entries were found, read off by unfolding `runMain`. -/
theorem runMain_true_cases (entries : List Entry) :
    runMain true entries =
      (if (entries.filter (fun e => e.isFile)).length = 0 then
        { exitCode := 0,
          effects := [FsEffect.mkdirRec ogOutputDir, FsEffect.access ogSourceDir,
            FsEffect.readdir ogSourceDir] }
      else
        { exitCode := if (processAll (entries.filter (fun e => e.isFile))).1 then 0 else 1,
          effects := [FsEffect.mkdirRec ogOutputDir, FsEffect.access ogSourceDir,
              FsEffect.readdir ogSourceDir] ++
            (processAll (entries.filter (fun e => e.isFile))).2.map FsEffect.writeOut }) :=
  rfl

/-- The pipeline preamble effects contain no file write. -/
theorem preamble_no_write :
    ∀ eff ∈ [FsEffect.mkdirRec ogOutputDir, FsEffect.access ogSourceDir,
      FsEffect.readdir ogSourceDir], ∀ f, eff ≠ FsEffect.writeOut f := by
  intro eff heff f
  simp only [List.mem_cons, List.not_mem_nil, or_false] at heff
  rcases heff with h | h | h <;> subst h <;> simp

/-- C8: when the source directory exists and every file in it encodes
successfully, the run exits 0 and writes, in order, exactly one output per
source file, named by replacing the extension with .webp and carrying the
fixed resize and encode parameters (1200 x 630, cover, centre, quality 82). -/
theorem pipeline_success_spec (entries : List Entry)
    (hall : (entries.filter (fun e => e.isFile)).all (fun e => e.encodeOk) = true) :
    (runMain true entries).exitCode = 0 ∧
    writtenOutputs (runMain true entries) =
      (entries.filter (fun e => e.isFile)).map expectedOutput := by
  rw [runMain_true_cases]
  by_cases h0 : (entries.filter (fun e => e.isFile)).length = 0
  · rw [if_pos h0, List.length_eq_zero.mp h0]
    exact ⟨rfl, rfl⟩
  · rw [if_neg h0, processAll_all_ok _ hall]
    exact ⟨rfl, writtenOutputs_calc 0 _ _ preamble_no_write⟩

/-- A one-file source directory: the spec scenario's `a.png`. -/
def aPngEntry : Entry :=
  { name := "a.png".toList, isFile := true, encodeOk := true }

/-- C8 witness: a source directory holding only `a.png` yields exit 0 and the
single output `a.webp` at 1200 x 630, cover, centre, quality 82. -/
theorem pipeline_success_spec_witness :
    ((runMain true [aPngEntry]).exitCode = 0 ∧
      writtenOutputs (runMain true [aPngEntry]) =
        ([aPngEntry].filter (fun e => e.isFile)).map expectedOutput) ∧
    writtenOutputs (runMain true [aPngEntry]) =
      [{ name := "a.webp".toList, width := 1200, height := 630,
         fit := fitCover, position := posCentre, quality := 82 }] :=
  ⟨pipeline_success_spec [aPngEntry] (by decide), by decide⟩

/-- C9: the pipeline's error behavior. A missing source directory and a
source directory with no file entries are benign no-ops (exit 0, nothing
written); a single encode failure aborts the run at that file with exit 1,
keeping the outputs already written for earlier files and processing no later
file. -/
theorem pipeline_error_spec (entries entries0 good rest : List Entry) (bad : Entry)
    (h0 : entries0.filter (fun e => e.isFile) = [])
    (hsplit : entries.filter (fun e => e.isFile) = good ++ bad :: rest)
    (hgood : good.all (fun e => e.encodeOk) = true)
    (hbad : bad.encodeOk = false) :
    (runMain false entries).exitCode = 0 ∧
    writtenOutputs (runMain false entries) = [] ∧
    (runMain true entries0).exitCode = 0 ∧
    writtenOutputs (runMain true entries0) = [] ∧
    (runMain true entries).exitCode = 1 ∧
    writtenOutputs (runMain true entries) = good.map expectedOutput := by
  have hfail := processAll_first_fail good rest bad hgood hbad
  have hlen : ¬ (entries.filter (fun e => e.isFile)).length = 0 := by
    rw [hsplit]
    simp
  refine ⟨rfl, rfl, ?_, ?_, ?_, ?_⟩
  · rw [runMain_true_cases, if_pos (by rw [h0]; rfl)]
  · rw [runMain_true_cases, if_pos (by rw [h0]; rfl)]
    rfl
  · rw [runMain_true_cases, if_neg hlen, hsplit, hfail]
    rfl
  · rw [runMain_true_cases, if_neg hlen, hsplit, hfail]
    exact writtenOutputs_calc 1 _ _ preamble_no_write

/-- A file entry that encodes successfully. -/
def okEntry : Entry :=
  { name := "a.png".toList, isFile := true, encodeOk := true }

/-- A file entry whose sharp encode/write fails. -/
def badEntry : Entry :=
  { name := "b.png".toList, isFile := true, encodeOk := false }

/-- A file entry after the failing one; it is never processed. -/
def postEntry : Entry :=
  { name := "c.png".toList, isFile := true, encodeOk := true }

/-- A non-file directory entry; `listFiles` filters it out. -/
def dirEntry : Entry :=
  { name := "sub".toList, isFile := false, encodeOk := true }

/-- C9 witness: a missing directory, an empty directory, and a batch whose
second file fails after the first was written. -/
theorem pipeline_error_spec_witness :
    (runMain false [okEntry, badEntry, postEntry, dirEntry]).exitCode = 0 ∧
    writtenOutputs (runMain false [okEntry, badEntry, postEntry, dirEntry]) = [] ∧
    (runMain true []).exitCode = 0 ∧
    writtenOutputs (runMain true []) = [] ∧
    (runMain true [okEntry, badEntry, postEntry, dirEntry]).exitCode = 1 ∧
    writtenOutputs (runMain true [okEntry, badEntry, postEntry, dirEntry]) =
      [okEntry].map expectedOutput :=
  pipeline_error_spec [okEntry, badEntry, postEntry, dirEntry] [] [okEntry]
    [postEntry] badEntry (by decide) (by decide) (by decide) (by decide)

/-- C10: every run creates the output directory (recursively) as its first
filesystem effect, before probing the source directory; in particular a run
with a missing source directory still performs exactly the mkdir and the
probe, writes nothing, and exits 0 — the filesystem is not untouched. -/
theorem outputDir_created_first (b : Bool) (entries entriesM : List Entry) :
    (runMain b entries).effects.take 2 =
      [FsEffect.mkdirRec ogOutputDir, FsEffect.access ogSourceDir] ∧
    (runMain false entriesM).effects =
      [FsEffect.mkdirRec ogOutputDir, FsEffect.access ogSourceDir] ∧
    (runMain false entriesM).exitCode = 0 ∧
    writtenOutputs (runMain false entriesM) = [] := by
  refine ⟨?_, rfl, rfl, rfl⟩
  cases b with
  | false => rfl
  | true =>
    simp only [runMain]
    split_ifs <;> rfl
